import Mathlib

/-!
Shallow embedding of `bbsmon` (src/main.rs): an RSS monitor that fetches a
remote feed, diffs it against a locally stored snapshot, mails the new items,
and persists the fetched document.  External collaborators (the `rss` parser,
`reqwest` HTTP client, `serde_json` text-level JSON parser, `tera` template
engine, `chrono` date parsing, and the `lettre` SMTP transport) are modelled
as function parameters gathered in `Ext`; everything the repository itself
does (diffing, field conversion, config-schema validation, orchestration,
snapshot writing) is embedded concretely.
-/

namespace Bbsmon

/-- One feed entry, per the data model: five optional fields
(`rss::Item` as used by the program). -/
structure Item where
  title : Option String
  link : Option String
  description : Option String
  author : Option String
  pub_date : Option String
deriving DecidableEq, Repr

/-- Presentation copy of an item (struct `SerItem` in main.rs). -/
structure SerItem where
  title : Option String
  link : Option String
  description : Option String
  author : Option String
  pub_date : Option String
deriving DecidableEq, Repr

/-- A parsed feed channel: its ordered item list (`rss::Channel.items`). -/
structure Channel where
  items : List Item
deriving DecidableEq, Repr

/-- Run configuration (struct `Config` in main.rs).  The Rust fields `from`
and `to` are keywords or near-keywords in Lean, so they are named
`fromAddr` / `toAddr` here; the JSON keys remain "from" / "to". -/
structure Config where
  local_rss : String
  remote_rss : String
  subject : String
  fromAddr : String
  toAddr : String
  password : String
  server : String
deriving DecidableEq, Repr

/-- The program's error union (enum `MyError`).  Payloads of the wrapped
external error types are dropped; `Other` keeps its message string. -/
inductive MyError where
  | Io
  | Http
  | Rss
  | Json
  | Other (msg : String)
deriving DecidableEq, Repr

/-- JSON values, for modelling `serde_json` deserialization of `Config`. -/
inductive Json where
  | null
  | bool (b : Bool)
  | num (n : Int)
  | str (s : String)
  | arr (elems : List Json)
  | obj (fields : List (String × Json))
deriving Repr

/-- Field lookup in a JSON object. -/
def Json.getField : Json → String → Option Json
  | Json.obj fields, key =>
    match fields.find? (fun kv => kv.fst == key) with
    | some kv => some kv.snd
    | none => none
  | _, _ => none

/-- String extraction from a JSON value. -/
def Json.asStr : Json → Option String
  | Json.str s => some s
  | _ => none

/-- A calendar date-time, standing for chrono's date-time values. -/
structure DateRec where
  year : Nat
  month : Nat
  day : Nat
  hour : Nat
  minute : Nat
  second : Nat
deriving DecidableEq, Repr

/-- Zero-pad a number to two digits (chrono's numeric format specifiers). -/
def pad2 (n : Nat) : String :=
  if n < 10 then "0" ++ toString n else toString n

/-- Zero-pad a year to four digits. -/
def pad4 (n : Nat) : String :=
  if n < 10 then "000" ++ toString n
  else if n < 100 then "00" ++ toString n
  else if n < 1000 then "0" ++ toString n
  else toString n

/-- The format string used at main.rs line 191: "%Y-%m-%d %H:%M:%S". -/
def formatYmdHms (d : DateRec) : String :=
  pad4 d.year ++ "-" ++ pad2 d.month ++ "-" ++ pad2 d.day ++ " " ++
    pad2 d.hour ++ ":" ++ pad2 d.minute ++ ":" ++ pad2 d.second

/-- The email message assembled by `EmailBuilder` in `send_mail`. -/
structure EmailMsg where
  subject : String
  fromAddr : String
  toAddr : String
  toName : String
  headers : List (String × String)
  body : String
deriving DecidableEq, Repr

/-- SMTP authentication mechanisms used by the program. -/
inductive AuthMechanism where
  | plain
deriving DecidableEq, Repr

/-- The SMTP connection parameters assembled by `SmtpTransportBuilder`. -/
structure SmtpConn where
  host : String
  port : Nat
  credUser : String
  credPass : String
  smtpUtf8 : Bool
  mech : AuthMechanism
deriving DecidableEq, Repr

/-- Observable side effects of one run, in order of occurrence. -/
inductive Effect where
  | netFetch (url : String)
  | renderEff (items : List SerItem)
  | mailSend (msg : EmailMsg) (conn : SmtpConn)
  | fileWrite (path : String) (content : String)
deriving DecidableEq, Repr

/-- External collaborators, as pure functions:
`parseRss` is `str::parse::<rss::Channel>`, `jsonParse` is serde_json's
text-level parser (schema validation of `Config` is modelled concretely in
`deserializeConfig`), `tera` is template rendering keyed by template name,
`parse2822` is `DateTime::parse_from_rfc2822`, `toLocal` is
`with_timezone(&Local)`, and the three `Ok` predicates are the fallible
steps of the lettre mail transport (message build, transport construction,
send). -/
structure Ext where
  parseRss : String → Option Channel
  jsonParse : String → Option Json
  tera : String → List SerItem → Option String
  parse2822 : String → Option DateRec
  toLocal : DateRec → DateRec
  buildOk : EmailMsg → Bool
  transportOk : SmtpConn → Bool
  sendOk : EmailMsg → SmtpConn → Bool

/-- The world a run acts on: the local file system (path, content) and the
remote HTTP server (URL to response body; `none` is a transport failure). -/
structure World where
  fs : List (String × String)
  remote : String → Option String

/-- Result of one run: the process outcome, the file system afterwards, and
the trace of observable side effects. -/
structure RunResult where
  outcome : Except MyError Unit
  fs : List (String × String)
  effects : List Effect

/-- Read a file (`File::open` + `read_to_string`). -/
def fsRead : List (String × String) → String → Option String
  | [], _ => none
  | (k, v) :: rest, p => if k = p then some v else fsRead rest p

/-- Create/overwrite a file (`File::create` + `write_all`). -/
def fsWrite : List (String × String) → String → String → List (String × String)
  | [], p, s => [(p, s)]
  | (k, v) :: rest, p, s =>
    if k = p then (p, s) :: rest else (k, v) :: fsWrite rest p s

/-- A fetched or loaded feed: raw bytes plus the parsed channel
(struct `RssContext`). -/
structure RssContext where
  raw : String
  channel : Channel
deriving DecidableEq, Repr

/-- `Vec::contains` on item lists: membership by structural equality. -/
def containsItem (l : List Item) (x : Item) : Bool :=
  l.any (fun y => decide (y = x))

/-- `RssContext::diff` (main.rs lines 158-171): collect, in order, the items
of `ctx_a` that `ctx_b`'s item list does not contain. -/
def RssContext.diff (ctx_a ctx_b : RssContext) : List Item :=
  ctx_a.channel.items.foldl
    (fun c item_a =>
      if containsItem ctx_b.channel.items item_a = true then c else c ++ [item_a])
    []

/-- `RssContext::from_reader`: parse a body, keep the raw text. -/
def RssContext.from_reader (E : Ext) (body : String) : Except MyError RssContext :=
  match E.parseRss body with
  | none => Except.error MyError.Rss
  | some channel => Except.ok ⟨body, channel⟩

/-- `RssContext::from_url`: HTTP fetch then parse. -/
def RssContext.from_url (E : Ext) (remote : String → Option String) (url : String) :
    Except MyError RssContext :=
  match remote url with
  | none => Except.error MyError.Http
  | some body => RssContext.from_reader E body

/-- `RssContext::from_file`: read the file then parse. -/
def RssContext.from_file (E : Ext) (fs : List (String × String)) (filename : String) :
    Except MyError RssContext :=
  match fsRead fs filename with
  | none => Except.error MyError.Io
  | some body => RssContext.from_reader E body

/-- `RssContext::to_file` (main.rs lines 150-155): write the raw bytes. -/
def RssContext.to_file (ctx : RssContext) (fs : List (String × String))
    (filename : String) : List (String × String) :=
  fsWrite fs filename ctx.raw

/-- `convert_pub_date` (main.rs lines 186-197). -/
def convert_pub_date (E : Ext) (old : Option String) : Option String :=
  match old with
  | some date_str =>
    match E.parse2822 date_str with
    | some date => some (formatYmdHms (E.toLocal date))
    | none => some date_str
  | none => none

/-- `convert_to_ser_items` (main.rs lines 199-213): push a presentation copy
of each item, in order. -/
def convert_to_ser_items (E : Ext) (items : List Item) : List SerItem :=
  items.foldl
    (fun ser_items item =>
      ser_items ++
        [⟨item.title, item.link, item.description, item.author,
          convert_pub_date E item.pub_date⟩])
    []

/-- A required string field of the config JSON object. -/
def reqStr (j : Json) (key : String) : Option String :=
  (Json.getField j key).bind Json.asStr

/-- serde's derived `Deserialize` for `Config`: all seven fields are
required strings; any missing or mistyped field fails. -/
def deserializeConfig (j : Json) : Option Config :=
  match reqStr j "local_rss", reqStr j "remote_rss", reqStr j "subject",
      reqStr j "from", reqStr j "to", reqStr j "password", reqStr j "server" with
  | some l, some r, some s, some f, some t, some p, some v =>
    some ⟨l, r, s, f, t, p, v⟩
  | _, _, _, _, _, _, _ => none

/-- `load_config` (main.rs lines 215-223): read the file, parse the JSON,
deserialize the schema. -/
def load_config (E : Ext) (fs : List (String × String)) (filename : String) :
    Except MyError Config :=
  match fsRead fs filename with
  | none => Except.error MyError.Io
  | some content =>
    match E.jsonParse content with
    | none => Except.error MyError.Json
    | some j =>
      match deserializeConfig j with
      | none => Except.error MyError.Json
      | some config => Except.ok config

/-- `fetch_diff_items` (main.rs lines 225-236): fetch the remote document,
load the local snapshot, diff, and convert when the diff is non-empty. -/
def fetch_diff_items (E : Ext) (remote : String → Option String)
    (fs : List (String × String)) (localPath remotePath : String) :
    Except MyError (List SerItem × RssContext) :=
  match RssContext.from_url E remote remotePath with
  | Except.error e => Except.error e
  | Except.ok new_ctx =>
    match RssContext.from_file E fs localPath with
    | Except.error e => Except.error e
    | Except.ok old_ctx =>
      let new_items := RssContext.diff new_ctx old_ctx
      if new_items.length ≤ 0 then Except.ok ([], new_ctx)
      else Except.ok (convert_to_ser_items E new_items, new_ctx)

/-- `render` (main.rs lines 238-248): the template engine is invoked with
the fixed template name "mail.html"; its two path arguments are unused by
the body. -/
def render (E : Ext) (templates tmpl_file : String) (items : List SerItem) :
    Except MyError String :=
  match E.tera "mail.html" items with
  | some s => Except.ok s
  | none => Except.error (MyError.Other "render failed")

/-- The message `send_mail` builds: subject/from/to from the config, the
fixed recipient display name, the fixed Content-Type header, and the
rendered body. -/
def buildEmailMsg (c : Config) (content : String) : EmailMsg :=
  ⟨c.subject, c.fromAddr, c.toAddr, "BBS Notification Receiver",
    [("Content-Type", "text/html; charset=UTF-8")], content⟩

/-- The transport `send_mail` builds: the configured host on port 25,
credentials (from-address, password), SMTPUTF8, PLAIN authentication. -/
def buildSmtpConn (c : Config) : SmtpConn :=
  ⟨c.server, 25, c.fromAddr, c.password, true, AuthMechanism.plain⟩

/-- Modelled from the spec: "the standard mail submission port" is the
message submission port of RFC 6409, port 587.  (The spec's words; the
program itself uses a different port — see `buildSmtpConn`.) -/
def standardMailSubmissionPort : Nat := 587

/-- `send_mail` (main.rs lines 250-282): build the message, build the
transport, send; each step can fail.  Returns the outcome together with the
mail effects (a send attempt happens only when build and transport
construction succeeded). -/
def send_mail (E : Ext) (c : Config) (content : String) :
    Except MyError Unit × List Effect :=
  let email := buildEmailMsg c content
  if E.buildOk email = false then
    (Except.error (MyError.Other "email build failed"), [])
  else
    let conn := buildSmtpConn c
    if E.transportOk conn = false then
      (Except.error (MyError.Other "smtp transport failed"), [])
    else if E.sendOk email conn = true then
      (Except.ok (), [Effect.mailSend email conn])
    else
      (Except.error (MyError.Other "send failed"), [Effect.mailSend email conn])

/-- The pipeline after configuration loading (body of `main` from line 287):
fetch+diff, no-op on an empty diff, otherwise render, send, and only then
persist the fetched document to the fixed path "old-rss.xml". -/
def afterConfig (E : Ext) (w : World) (config : Config) : RunResult :=
  match fetch_diff_items E w.remote w.fs config.local_rss config.remote_rss with
  | Except.error e => ⟨Except.error e, w.fs, [Effect.netFetch config.remote_rss]⟩
  | Except.ok (items, new_ctx) =>
    if items.length ≤ 0 then
      ⟨Except.ok (), w.fs, [Effect.netFetch config.remote_rss]⟩
    else
      match render E "templates/**/*" "mail.html" items with
      | Except.error e =>
        ⟨Except.error e, w.fs,
          [Effect.netFetch config.remote_rss, Effect.renderEff items]⟩
      | Except.ok content =>
        match send_mail E config content with
        | (Except.error e, meff) =>
          ⟨Except.error e, w.fs,
            [Effect.netFetch config.remote_rss, Effect.renderEff items] ++ meff⟩
        | (Except.ok _, meff) =>
          ⟨Except.ok (), RssContext.to_file new_ctx w.fs "old-rss.xml",
            ([Effect.netFetch config.remote_rss, Effect.renderEff items] ++ meff)
              ++ [Effect.fileWrite "old-rss.xml" new_ctx.raw]⟩

/-- `main` (main.rs lines 284-298): load the config from the fixed path
"bbsmon.json", then run the pipeline.  A `.unwrap()` panic is modelled as an
error outcome; no effect other than the config file read precedes a config
failure. -/
def main (E : Ext) (w : World) : RunResult :=
  match load_config E w.fs "bbsmon.json" with
  | Except.error e => ⟨Except.error e, w.fs, []⟩
  | Except.ok config => afterConfig E w config

instance exceptDecEq {ε α : Type} [DecidableEq ε] [DecidableEq α] :
    DecidableEq (Except ε α) := fun x y =>
  match x, y with
  | Except.ok u, Except.ok v =>
    if h : u = v then isTrue (by rw [h])
    else isFalse (by intro hc; cases hc; exact h rfl)
  | Except.error e, Except.error f =>
    if h : e = f then isTrue (by rw [h])
    else isFalse (by intro hc; cases hc; exact h rfl)
  | Except.ok _, Except.error _ => isFalse (by intro hc; cases hc)
  | Except.error _, Except.ok _ => isFalse (by intro hc; cases hc)

/-! Concrete scenario data, used by witnesses and counterexamples.  Feed
bodies and config texts are stand-ins for the raw bytes the external
parsers consume; the `Ext` instances below fix what those parsers return
on them. -/

/-- A feed item whose pub-date string is not RFC 2822 (spec example 3). -/
def itemA : Item :=
  ⟨some "A", some "http://x/a", some "da", some "au", some "not-a-date"⟩

/-- Channel of the remote document: one item. -/
def chanNew : Channel := ⟨[itemA]⟩

/-- Channel of the stored snapshot: no items. -/
def chanOld : Channel := ⟨[]⟩

/-- Config JSON object with a chosen local snapshot path. -/
def cfgJsonWith (localPath : String) : Json :=
  Json.obj
    [("local_rss", Json.str localPath), ("remote_rss", Json.str "http://feed"),
     ("subject", Json.str "S"), ("from", Json.str "F"), ("to", Json.str "T"),
     ("password", Json.str "P"), ("server", Json.str "M")]

/-- Config JSON object missing the required "server" field. -/
def cfgJsonNoServer : Json :=
  Json.obj
    [("local_rss", Json.str "old-rss.xml"), ("remote_rss", Json.str "http://feed"),
     ("subject", Json.str "S"), ("from", Json.str "F"), ("to", Json.str "T"),
     ("password", Json.str "P")]

/-- A concrete parsed date. -/
def dEx : DateRec := ⟨2020, 1, 2, 3, 4, 5⟩

/-- Concrete collaborators: "NEW"/"OLD" parse to the channels above,
"CFG1"/"CFG2" parse to config objects whose local_rss is "old-rss.xml" /
"feed-old.xml", rendering always yields "BODY", one RFC 2822 string parses
to `dEx`, and mail build/transport succeed; `sOk` decides the send. -/
def extWith (sOk : EmailMsg → SmtpConn → Bool) : Ext :=
  ⟨fun s => if s = "NEW" then some chanNew else if s = "OLD" then some chanOld else none,
   fun s =>
     if s = "CFG1" then some (cfgJsonWith "old-rss.xml")
     else if s = "CFG2" then some (cfgJsonWith "feed-old.xml") else none,
   fun _ _ => some "BODY",
   fun s => if s = "Thu, 02 Jan 2020 03:04:05 +0000" then some dEx else none,
   fun d => d,
   fun _ => true,
   fun _ => true,
   sOk⟩

/-- Collaborators with a succeeding mail send. -/
def extBase : Ext := extWith (fun _ _ => true)

/-- Collaborators whose mail send fails. -/
def extSendFail : Ext := extWith (fun _ _ => false)

/-- The remote server: the configured feed URL serves the "NEW" document. -/
def remoteEx : String → Option String :=
  fun u => if u = "http://feed" then some "NEW" else none

/-- World A: config points the local snapshot at "old-rss.xml". -/
def wA : World := ⟨[("bbsmon.json", "CFG1"), ("old-rss.xml", "OLD")], remoteEx⟩

/-- World B: config points the local snapshot at "feed-old.xml". -/
def wB : World := ⟨[("bbsmon.json", "CFG2"), ("feed-old.xml", "OLD")], remoteEx⟩

/-- World with remote and local documents identical (empty diff). -/
def wNoop : World :=
  ⟨[("bbsmon.json", "CFG1"), ("old-rss.xml", "OLD")],
   fun u => if u = "http://feed" then some "OLD" else none⟩

/-- World with no files at all (the config file is missing). -/
def wEmpty : World := ⟨[], fun _ => none⟩

/-- The config "CFG1" deserializes to. -/
def cfgA : Config := ⟨"old-rss.xml", "http://feed", "S", "F", "T", "P", "M"⟩

/-- The config "CFG2" deserializes to. -/
def cfgB : Config := ⟨"feed-old.xml", "http://feed", "S", "F", "T", "P", "M"⟩

/-- The snapshot context parsed from "OLD". -/
def ctxOldSnap : RssContext := ⟨"OLD", chanOld⟩

/-- The feed context parsed from "NEW". -/
def ctxNewSnap : RssContext := ⟨"NEW", chanNew⟩

/-- The message built for config B and body "BODY". -/
def msgB : EmailMsg := buildEmailMsg cfgB "BODY"

/-- The transport built for config B. -/
def connB : SmtpConn := buildSmtpConn cfgB

/-! Helper lemmas. -/

theorem fsRead_fsWrite_self (fs : List (String × String)) (p s : String) :
    fsRead (fsWrite fs p s) p = some s := by
  induction fs with
  | nil => simp [fsWrite, fsRead]
  | cons kv rest ih =>
    obtain ⟨k, v⟩ := kv
    by_cases h : k = p
    · simp [fsWrite, h, fsRead]
    · simp [fsWrite, h, fsRead, ih]

theorem fsRead_fsWrite_other (fs : List (String × String)) (p s q : String)
    (h : q ≠ p) : fsRead (fsWrite fs p s) q = fsRead fs q := by
  induction fs with
  | nil => simp [fsWrite, fsRead, Ne.symm h]
  | cons kv rest ih =>
    obtain ⟨k, v⟩ := kv
    by_cases hk : k = p
    · subst hk
      simp [fsWrite, fsRead, Ne.symm h]
    · simp [fsWrite, hk, fsRead, ih]

theorem foldl_push_eq_map {α β : Type} (f : α → β) (l : List α) :
    ∀ acc : List β, l.foldl (fun c x => c ++ [f x]) acc = acc ++ l.map f := by
  induction l with
  | nil => intro acc; simp
  | cons x xs ih => intro acc; simp [List.foldl_cons, ih]

theorem foldl_pushIf_eq_filter {α : Type} (p : α → Bool) (l : List α) :
    ∀ acc : List α,
      l.foldl (fun c x => if p x = true then c else c ++ [x]) acc =
        acc ++ l.filter (fun x => !p x) := by
  induction l with
  | nil => intro acc; simp
  | cons x xs ih =>
    intro acc
    by_cases h : p x = true
    · simp [List.foldl_cons, h, ih, List.filter_cons]
    · simp [List.foldl_cons, h, ih, List.filter_cons]

theorem containsItem_eq_true_iff (l : List Item) (x : Item) :
    containsItem l x = true ↔ x ∈ l := by
  simp [containsItem, List.any_eq_true]

theorem diff_eq_filter (a b : RssContext) :
    RssContext.diff a b =
      a.channel.items.filter (fun x => !containsItem b.channel.items x) := by
  unfold RssContext.diff
  simpa using foldl_pushIf_eq_filter (fun x => containsItem b.channel.items x)
    a.channel.items []

theorem diff_self_nil (d : RssContext) : RssContext.diff d d = [] := by
  rw [diff_eq_filter]
  apply List.filter_eq_nil_iff.mpr
  intro x hx
  simp [containsItem_eq_true_iff, hx]

theorem convert_to_ser_items_eq_map (E : Ext) (items : List Item) :
    convert_to_ser_items E items =
      items.map (fun item =>
        (⟨item.title, item.link, item.description, item.author,
          convert_pub_date E item.pub_date⟩ : SerItem)) := by
  unfold convert_to_ser_items
  simpa using
    foldl_push_eq_map (fun item =>
      (⟨item.title, item.link, item.description, item.author,
        convert_pub_date E item.pub_date⟩ : SerItem)) items []

theorem convert_to_ser_items_length (E : Ext) (items : List Item) :
    (convert_to_ser_items E items).length = items.length := by
  rw [convert_to_ser_items_eq_map]
  exact List.length_map items _

theorem load_config_congr (E : Ext) (fs1 fs2 : List (String × String))
    (f : String) (h : fsRead fs1 f = fsRead fs2 f) :
    load_config E fs1 f = load_config E fs2 f := by
  unfold load_config
  rw [h]

theorem from_reader_ok_of_parse (E : Ext) (body : String) (ch : Channel)
    (h : E.parseRss body = some ch) :
    RssContext.from_reader E body = Except.ok ⟨body, ch⟩ := by
  simp [RssContext.from_reader, h]

theorem from_url_inv (E : Ext) (remote : String → Option String) (url : String)
    (ctx : RssContext) (h : RssContext.from_url E remote url = Except.ok ctx) :
    remote url = some ctx.raw ∧ E.parseRss ctx.raw = some ctx.channel := by
  cases hr : remote url with
  | none => simp [RssContext.from_url, hr] at h
  | some body =>
    simp only [RssContext.from_url, hr] at h
    cases hp : E.parseRss body with
    | none => simp [RssContext.from_reader, hp] at h
    | some ch =>
      simp only [RssContext.from_reader, hp] at h
      injection h with h2
      subst h2
      exact ⟨rfl, hp⟩

theorem send_mail_mem_effects (E : Ext) (c : Config) (content : String)
    (m : EmailMsg) (cn : SmtpConn)
    (h : Effect.mailSend m cn ∈ (send_mail E c content).snd) :
    m = buildEmailMsg c content ∧ cn = buildSmtpConn c := by
  by_cases hb : E.buildOk (buildEmailMsg c content) = false
  · simp [send_mail, hb] at h
  · by_cases ht : E.transportOk (buildSmtpConn c) = false
    · simp [send_mail, hb, ht] at h
    · by_cases hs : E.sendOk (buildEmailMsg c content) (buildSmtpConn c) = true
      · simp [send_mail, hb, ht, hs] at h
        exact h
      · simp [send_mail, hb, ht, hs] at h
        exact h

theorem send_mail_ok_inv (E : Ext) (c : Config) (content : String)
    (meff : List Effect) (h : send_mail E c content = (Except.ok (), meff)) :
    E.sendOk (buildEmailMsg c content) (buildSmtpConn c) = true
    ∧ meff = [Effect.mailSend (buildEmailMsg c content) (buildSmtpConn c)] := by
  by_cases hb : E.buildOk (buildEmailMsg c content) = false
  · simp [send_mail, hb] at h
  · by_cases ht : E.transportOk (buildSmtpConn c) = false
    · simp [send_mail, hb, ht] at h
    · by_cases hs : E.sendOk (buildEmailMsg c content) (buildSmtpConn c) = true
      · simp [send_mail, hb, ht, hs] at h
        exact ⟨hs, h.symm⟩
      · simp [send_mail, hb, ht, hs] at h

theorem send_mail_snd_cases (E : Ext) (c : Config) (content : String) :
    (send_mail E c content).snd = []
    ∨ (send_mail E c content).snd =
        [Effect.mailSend (buildEmailMsg c content) (buildSmtpConn c)] := by
  by_cases hb : E.buildOk (buildEmailMsg c content) = false
  · exact Or.inl (by simp [send_mail, hb])
  · by_cases ht : E.transportOk (buildSmtpConn c) = false
    · exact Or.inl (by simp [send_mail, hb, ht])
    · by_cases hs : E.sendOk (buildEmailMsg c content) (buildSmtpConn c) = true
      · exact Or.inr (by simp [send_mail, hb, ht, hs])
      · exact Or.inr (by simp [send_mail, hb, ht, hs])

theorem rssContext_eta (ctx : RssContext) :
    (⟨ctx.raw, ctx.channel⟩ : RssContext) = ctx := rfl

theorem fetch_diff_items_inv (E : Ext) (remote : String → Option String)
    (fs : List (String × String)) (localPath remotePath : String)
    (its : List SerItem) (ctx : RssContext)
    (h : fetch_diff_items E remote fs localPath remotePath =
      Except.ok (its, ctx)) :
    RssContext.from_url E remote remotePath = Except.ok ctx := by
  cases hu : RssContext.from_url E remote remotePath with
  | error e => simp [fetch_diff_items, hu] at h
  | ok newCtx =>
    cases ho : RssContext.from_file E fs localPath with
    | error e => simp [fetch_diff_items, hu, ho] at h
    | ok oldCtx =>
      simp only [fetch_diff_items, hu, ho] at h
      split at h <;>
        (injection h with h2; injection h2 with h3 h4; subst h4; rfl)

theorem main_cases (E : Ext) (w : World) :
    (∃ e, load_config E w.fs "bbsmon.json" = Except.error e
      ∧ main E w = ⟨Except.error e, w.fs, []⟩)
    ∨ (∃ cfg, load_config E w.fs "bbsmon.json" = Except.ok cfg
        ∧ main E w = afterConfig E w cfg) := by
  cases hl : load_config E w.fs "bbsmon.json" with
  | error e => exact Or.inl ⟨e, rfl, by simp [main, hl]⟩
  | ok cfg => exact Or.inr ⟨cfg, rfl, by simp [main, hl]⟩

theorem afterConfig_cases (E : Ext) (w : World) (cfg : Config) :
    (∃ e, fetch_diff_items E w.remote w.fs cfg.local_rss cfg.remote_rss =
        Except.error e
      ∧ afterConfig E w cfg =
          ⟨Except.error e, w.fs, [Effect.netFetch cfg.remote_rss]⟩)
    ∨ (∃ ctx, fetch_diff_items E w.remote w.fs cfg.local_rss cfg.remote_rss =
        Except.ok ([], ctx)
      ∧ afterConfig E w cfg =
          ⟨Except.ok (), w.fs, [Effect.netFetch cfg.remote_rss]⟩)
    ∨ (∃ items ctx, items ≠ []
      ∧ fetch_diff_items E w.remote w.fs cfg.local_rss cfg.remote_rss =
          Except.ok (items, ctx)
      ∧ E.tera "mail.html" items = none
      ∧ afterConfig E w cfg =
          ⟨Except.error (MyError.Other "render failed"), w.fs,
            [Effect.netFetch cfg.remote_rss, Effect.renderEff items]⟩)
    ∨ (∃ items ctx content e meff, items ≠ []
      ∧ fetch_diff_items E w.remote w.fs cfg.local_rss cfg.remote_rss =
          Except.ok (items, ctx)
      ∧ E.tera "mail.html" items = some content
      ∧ send_mail E cfg content = (Except.error e, meff)
      ∧ afterConfig E w cfg =
          ⟨Except.error e, w.fs,
            [Effect.netFetch cfg.remote_rss, Effect.renderEff items] ++ meff⟩)
    ∨ (∃ items ctx content, items ≠ []
      ∧ fetch_diff_items E w.remote w.fs cfg.local_rss cfg.remote_rss =
          Except.ok (items, ctx)
      ∧ E.tera "mail.html" items = some content
      ∧ E.sendOk (buildEmailMsg cfg content) (buildSmtpConn cfg) = true
      ∧ afterConfig E w cfg =
          ⟨Except.ok (), fsWrite w.fs "old-rss.xml" ctx.raw,
            [Effect.netFetch cfg.remote_rss, Effect.renderEff items,
             Effect.mailSend (buildEmailMsg cfg content) (buildSmtpConn cfg),
             Effect.fileWrite "old-rss.xml" ctx.raw]⟩) := by
  cases hf : fetch_diff_items E w.remote w.fs cfg.local_rss cfg.remote_rss with
  | error e =>
    exact Or.inl ⟨e, rfl, by simp [afterConfig, hf]⟩
  | ok pr =>
    obtain ⟨items, ctx⟩ := pr
    cases items with
    | nil =>
      exact Or.inr (Or.inl ⟨ctx, rfl, by simp [afterConfig, hf]⟩)
    | cons x xs =>
      cases hr : E.tera "mail.html" (x :: xs) with
      | none =>
        refine Or.inr (Or.inr (Or.inl ⟨x :: xs, ctx, by simp, rfl, hr, ?_⟩))
        simp [afterConfig, hf, render, hr]
      | some content =>
        cases hsm : send_mail E cfg content with
        | mk o meff =>
          cases o with
          | error e =>
            refine Or.inr (Or.inr (Or.inr (Or.inl
              ⟨x :: xs, ctx, content, e, meff, by simp, rfl, hr, hsm, ?_⟩)))
            simp [afterConfig, hf, render, hr, hsm]
          | ok u =>
            cases u
            obtain ⟨hsend, hmeff⟩ := send_mail_ok_inv E cfg content meff hsm
            subst hmeff
            refine Or.inr (Or.inr (Or.inr (Or.inr
              ⟨x :: xs, ctx, content, by simp, rfl, hr, hsend, ?_⟩)))
            simp [afterConfig, hf, render, hr, hsm, RssContext.to_file, fsWrite]

/-! Claim theorems. -/

/-- C4: `diff(new_doc, old_doc)` returns exactly the items of `new_doc`
whose value equals no item of `old_doc`, preserving `new_doc` order (the
result is a subsequence of `items(new_doc)`, namely the in-order filter of
the non-members), and two items are equal iff all five fields are equal. -/
theorem c4_diff_characterization (a b : RssContext) :
    List.Sublist (RssContext.diff a b) a.channel.items
    ∧ (∀ x : Item, x ∈ RssContext.diff a b ↔
        x ∈ a.channel.items ∧ ∀ y ∈ b.channel.items, x ≠ y)
    ∧ RssContext.diff a b =
        a.channel.items.filter (fun x => !containsItem b.channel.items x)
    ∧ (∀ x y : Item, x = y ↔
        (x.title = y.title ∧ x.link = y.link ∧ x.description = y.description
          ∧ x.author = y.author ∧ x.pub_date = y.pub_date)) := by
  refine ⟨?_, ?_, diff_eq_filter a b, ?_⟩
  · rw [diff_eq_filter]
    exact List.filter_sublist _
  · intro x
    rw [diff_eq_filter, List.mem_filter]
    constructor
    · rintro ⟨hx, hb⟩
      refine ⟨hx, ?_⟩
      intro y hy hxy
      subst hxy
      rw [(containsItem_eq_true_iff _ _).mpr hy] at hb
      simp at hb
    · rintro ⟨hx, hall⟩
      refine ⟨hx, ?_⟩
      have hfalse : containsItem b.channel.items x = false := by
        rw [Bool.eq_false_iff]
        intro hc
        exact hall x ((containsItem_eq_true_iff _ _).mp hc) rfl
      rw [hfalse]
      rfl
  · intro x y
    cases x
    cases y
    simp [Item.mk.injEq]

theorem c4_witness : itemA ∈ RssContext.diff ctxNewSnap ctxOldSnap :=
  ((c4_diff_characterization ctxNewSnap ctxOldSnap).2.1 itemA).mpr (by decide)

/-- C8: diffing a document against itself yields the empty sequence. -/
theorem c8_diff_self (d : RssContext) : RssContext.diff d d = [] :=
  diff_self_nil d

/-- C6: the pub-date transform is total and never drops the field: an absent
date stays absent, a string that fails RFC 2822 parsing passes through
unchanged, and a string that parses is converted to the local timezone and
reformatted with "%Y-%m-%d %H:%M:%S" (YYYY-MM-DD HH:MM:SS). -/
theorem c6_convert_pub_date_cases (E : Ext) :
    convert_pub_date E none = none
    ∧ (∀ s, E.parse2822 s = none → convert_pub_date E (some s) = some s)
    ∧ (∀ s d, E.parse2822 s = some d →
        convert_pub_date E (some s) = some (formatYmdHms (E.toLocal d))) := by
  refine ⟨rfl, ?_, ?_⟩
  · intro s h
    simp [convert_pub_date, h]
  · intro s d h
    simp [convert_pub_date, h]

theorem c6_witness :
    convert_pub_date extBase (some "not-a-date") = some "not-a-date"
    ∧ convert_pub_date extBase (some "Thu, 02 Jan 2020 03:04:05 +0000")
        = some (formatYmdHms (extBase.toLocal dEx)) :=
  ⟨(c6_convert_pub_date_cases extBase).2.1 "not-a-date" (by decide),
   (c6_convert_pub_date_cases extBase).2.2 "Thu, 02 Jan 2020 03:04:05 +0000"
     dEx (by decide)⟩

/-- C9: the item transformer keeps title, link, description, and author of
every item unchanged — including absence — and preserves the item count. -/
theorem c9_transform_frame (E : Ext) (items : List Item) :
    (convert_to_ser_items E items).map SerItem.title = items.map Item.title
    ∧ (convert_to_ser_items E items).map SerItem.link = items.map Item.link
    ∧ (convert_to_ser_items E items).map SerItem.description =
        items.map Item.description
    ∧ (convert_to_ser_items E items).map SerItem.author = items.map Item.author
    ∧ (convert_to_ser_items E items).length = items.length := by
  rw [convert_to_ser_items_eq_map]
  refine ⟨?_, ?_, ?_, ?_, by simp⟩ <;> simp [List.map_map, Function.comp]

/-- C5 (amended): `send_mail` builds its message with subject, from, and to
from the config, the fixed `Content-Type: text/html; charset=UTF-8` header,
and the rendered body; its connection targets the configured server on
port 25 (not the standard mail submission port 587), authenticating PLAIN
with the from-address and password as credentials. -/
theorem c5_send_mail_construction (E : Ext) (c : Config) (content : String)
    (m : EmailMsg) (cn : SmtpConn)
    (h : Effect.mailSend m cn ∈ (send_mail E c content).snd) :
    m.subject = c.subject ∧ m.fromAddr = c.fromAddr ∧ m.toAddr = c.toAddr
    ∧ ("Content-Type", "text/html; charset=UTF-8") ∈ m.headers
    ∧ m.body = content ∧ cn.host = c.server ∧ cn.port = 25
    ∧ cn.credUser = c.fromAddr ∧ cn.credPass = c.password
    ∧ cn.mech = AuthMechanism.plain := by
  obtain ⟨hm, hcn⟩ := send_mail_mem_effects E c content m cn h
  subst hm
  subst hcn
  simp [buildEmailMsg, buildSmtpConn]

theorem c5_witness : connB.port = 25 ∧ msgB.subject = cfgB.subject := by
  have h := c5_send_mail_construction extBase cfgB "BODY" msgB connB (by decide)
  exact ⟨h.2.2.2.2.2.2.1, h.1⟩

/-- C5 counterexample: on a concrete config the mail send attempt targets
port 25, which is not the standard mail submission port (587): the claim's
"standard mail submission port" is refuted by the code's fixed port 25. -/
theorem c5_counterexample :
    Effect.mailSend msgB connB ∈ (send_mail extBase cfgB "BODY").snd
    ∧ connB.port ≠ standardMailSubmissionPort := by decide

/-- C1: any failing run leaves the whole file system — in particular the
snapshot file — exactly as it was and performs no file write; and whenever
a run's trace contains the snapshot write, the trace is exactly fetch, then
render, then a mail send that succeeded, then the write: persistence happens
only after `send` has returned success. -/
theorem c1_persistence_gated_on_send (E : Ext) (w : World) :
    ((main E w).outcome ≠ Except.ok () →
      (main E w).fs = w.fs
      ∧ ∀ p s, Effect.fileWrite p s ∉ (main E w).effects)
    ∧ (∀ p s, Effect.fileWrite p s ∈ (main E w).effects →
        ∃ u its m cn,
          (main E w).effects =
            [Effect.netFetch u, Effect.renderEff its, Effect.mailSend m cn,
             Effect.fileWrite p s]
          ∧ E.sendOk m cn = true ∧ (main E w).outcome = Except.ok ()) := by
  rcases main_cases E w with ⟨e, hl, hm⟩ | ⟨cfg, hl, hm⟩
  · rw [hm]
    exact ⟨fun _ => ⟨rfl, by simp⟩, fun p s hmem => by simp at hmem⟩
  · rw [hm]
    rcases afterConfig_cases E w cfg with
      ⟨e, hf, ha⟩ | ⟨ctx, hf, ha⟩ | ⟨items, ctx, hne, hf, hr, ha⟩ |
      ⟨items, ctx, content, e, meff, hne, hf, hr, hsm, ha⟩ |
      ⟨items, ctx, content, hne, hf, hr, hsend, ha⟩
    · rw [ha]
      exact ⟨fun _ => ⟨rfl, by simp⟩, fun p s hmem => by simp at hmem⟩
    · rw [ha]
      exact ⟨fun _ => ⟨rfl, by simp⟩, fun p s hmem => by simp at hmem⟩
    · rw [ha]
      exact ⟨fun _ => ⟨rfl, by simp⟩, fun p s hmem => by simp at hmem⟩
    · rw [ha]
      have hmeff : meff = [] ∨
          meff = [Effect.mailSend (buildEmailMsg cfg content) (buildSmtpConn cfg)] := by
        have := send_mail_snd_cases E cfg content
        rw [hsm] at this
        exact this
      constructor
      · intro _
        refine ⟨rfl, ?_⟩
        intro p s
        rcases hmeff with h0 | h0 <;> subst h0 <;> simp
      · intro p s hmem
        exfalso
        rcases hmeff with h0 | h0 <;> subst h0 <;> simp at hmem
    · rw [ha]
      constructor
      · intro hne2
        exact absurd rfl hne2
      · intro p s hmem
        simp only [List.mem_cons, List.not_mem_nil, or_false] at hmem
        rcases hmem with h0 | h0 | h0 | h0
        · exact absurd h0 (by simp)
        · exact absurd h0 (by simp)
        · exact absurd h0 (by simp)
        · injection h0 with h1 h2
          subst h1
          subst h2
          exact ⟨cfg.remote_rss, items, buildEmailMsg cfg content,
            buildSmtpConn cfg, rfl, hsend, rfl⟩

theorem c1_witness : (main extSendFail wB).fs = wB.fs :=
  ((c1_persistence_gated_on_send extSendFail wB).1 (by decide)).1

/-- C7: when the diff of the fetched document against the loaded snapshot is
empty, the run terminates successfully, the file system (hence the snapshot
file) is untouched, and the trace holds only the fetch — no render, no mail
send, no file write. -/
theorem c7_empty_diff_noop (E : Ext) (w : World) (cfg : Config)
    (newCtx oldCtx : RssContext)
    (hc : load_config E w.fs "bbsmon.json" = Except.ok cfg)
    (hn : RssContext.from_url E w.remote cfg.remote_rss = Except.ok newCtx)
    (ho : RssContext.from_file E w.fs cfg.local_rss = Except.ok oldCtx)
    (hd : RssContext.diff newCtx oldCtx = []) :
    (main E w).outcome = Except.ok () ∧ (main E w).fs = w.fs
    ∧ (main E w).effects = [Effect.netFetch cfg.remote_rss] := by
  have hf : fetch_diff_items E w.remote w.fs cfg.local_rss cfg.remote_rss =
      Except.ok ([], newCtx) := by
    simp [fetch_diff_items, hn, ho, hd]
  simp [main, hc, afterConfig, hf]

theorem c7_witness :
    (main extBase wNoop).outcome = Except.ok () ∧ (main extBase wNoop).fs = wNoop.fs
    ∧ (main extBase wNoop).effects = [Effect.netFetch cfgA.remote_rss] :=
  c7_empty_diff_noop extBase wNoop cfgA ctxOldSnap ctxOldSnap
    (by decide) (by decide) (by decide) (by decide)

/-- C10: when configuration loading fails (missing or unreadable file, or
schema validation failure), the run aborts with an error, with an empty
effect trace — in particular before any network access — and an untouched
file system; and a config JSON object lacking the required "server" field
always fails schema validation. -/
theorem c10_config_failure_aborts (E : Ext) (w : World) :
    ((∀ cfg, load_config E w.fs "bbsmon.json" ≠ Except.ok cfg) →
      (∃ e, (main E w).outcome = Except.error e)
      ∧ (main E w).effects = [] ∧ (main E w).fs = w.fs)
    ∧ (∀ j : Json, Json.getField j "server" = none → deserializeConfig j = none) := by
  constructor
  · intro hno
    cases hl : load_config E w.fs "bbsmon.json" with
    | error e =>
      exact ⟨⟨e, by simp [main, hl]⟩, by simp [main, hl], by simp [main, hl]⟩
    | ok cfg => exact absurd hl (hno cfg)
  · intro j hs
    have hsv : reqStr j "server" = none := by simp [reqStr, hs]
    unfold deserializeConfig
    split
    · simp_all
    · rfl

theorem c10_witness :
    (main extBase wEmpty).effects = []
    ∧ deserializeConfig cfgJsonNoServer = none := by
  constructor
  · exact ((c10_config_failure_aborts extBase wEmpty).1
      (fun cfg h => by simp [wEmpty, load_config, fsRead] at h)).2.1
  · exact (c10_config_failure_aborts extBase wEmpty).2 cfgJsonNoServer rfl

/-- C3 (amended): every file write of a run targets the fixed path
"old-rss.xml", regardless of `Config.local_rss`; whenever `Config.local_rss`
differs from "old-rss.xml", the file at `Config.local_rss` is never written
(its content is unchanged by the run); and every successful run with a
non-empty diff writes the fetched document's raw bytes to "old-rss.xml".
(When `Config.local_rss` equals "old-rss.xml", the fixed-path write targets
that file — see the counterexample.) -/
theorem c3_fixed_snapshot_path (E : Ext) (w : World) :
    (∀ p s, Effect.fileWrite p s ∈ (main E w).effects → p = "old-rss.xml")
    ∧ (∀ cfg, load_config E w.fs "bbsmon.json" = Except.ok cfg →
        cfg.local_rss ≠ "old-rss.xml" →
        fsRead (main E w).fs cfg.local_rss = fsRead w.fs cfg.local_rss)
    ∧ (∀ cfg its ctx, load_config E w.fs "bbsmon.json" = Except.ok cfg →
        fetch_diff_items E w.remote w.fs cfg.local_rss cfg.remote_rss =
          Except.ok (its, ctx) →
        its ≠ [] → (main E w).outcome = Except.ok () →
        fsRead (main E w).fs "old-rss.xml" = some ctx.raw
        ∧ Effect.fileWrite "old-rss.xml" ctx.raw ∈ (main E w).effects) := by
  rcases main_cases E w with ⟨e, hl, hm⟩ | ⟨cfg0, hl, hm⟩
  · rw [hm]
    refine ⟨fun p s hmem => by simp at hmem, fun cfg hc hne => by simp, ?_⟩
    intro cfg its ctx hc hf hne hok
    rw [hl] at hc
    exact Except.noConfusion hc
  · rcases afterConfig_cases E w cfg0 with
      ⟨e, hf0, ha⟩ | ⟨ctx0, hf0, ha⟩ | ⟨items, ctx0, hne0, hf0, hr, ha⟩ |
      ⟨items, ctx0, content, e, meff, hne0, hf0, hr, hsm, ha⟩ |
      ⟨items, ctx0, content, hne0, hf0, hr, hsend, ha⟩
    · rw [hm, ha]
      refine ⟨fun p s hmem => by simp at hmem, fun cfg hc hne => by simp, ?_⟩
      intro cfg its ctx hc hf hne hok
      rw [hl] at hc
      injection hc with hcc
      subst hcc
      rw [hf0] at hf
      exact Except.noConfusion hf
    · rw [hm, ha]
      refine ⟨fun p s hmem => by simp at hmem, fun cfg hc hne => by simp, ?_⟩
      intro cfg its ctx hc hf hne hok
      rw [hl] at hc
      injection hc with hcc
      subst hcc
      rw [hf0] at hf
      injection hf with h2
      injection h2 with h3 h4
      exact absurd h3.symm hne
    · rw [hm, ha]
      refine ⟨fun p s hmem => by simp at hmem, fun cfg hc hne => by simp, ?_⟩
      intro cfg its ctx hc hf hne hok
      simp at hok
    · rw [hm, ha]
      have hmeff : meff = []
          ∨ meff = [Effect.mailSend (buildEmailMsg cfg0 content)
              (buildSmtpConn cfg0)] := by
        have hsc := send_mail_snd_cases E cfg0 content
        rw [hsm] at hsc
        exact hsc
      refine ⟨?_, fun cfg hc hne => by simp, ?_⟩
      · intro p s hmem
        exfalso
        rcases hmeff with h0 | h0 <;> subst h0 <;> simp at hmem
      · intro cfg its ctx hc hf hne hok
        simp at hok
    · rw [hm, ha]
      refine ⟨?_, ?_, ?_⟩
      · intro p s hmem
        simp only [List.mem_cons, List.not_mem_nil, or_false] at hmem
        rcases hmem with h0 | h0 | h0 | h0
        · exact absurd h0 (by simp)
        · exact absurd h0 (by simp)
        · exact absurd h0 (by simp)
        · injection h0 with h1 h2
      · intro cfg hc hne
        rw [hl] at hc
        injection hc with hcc
        subst hcc
        exact fsRead_fsWrite_other w.fs "old-rss.xml" ctx0.raw cfg0.local_rss hne
      · intro cfg its ctx hc hf hne hok
        rw [hl] at hc
        injection hc with hcc
        subst hcc
        rw [hf0] at hf
        injection hf with h2
        injection h2 with h3 h4
        subst h4
        exact ⟨fsRead_fsWrite_self w.fs "old-rss.xml" ctx0.raw, by simp⟩

theorem c3_witness :
    fsRead (main extBase wB).fs cfgB.local_rss = fsRead wB.fs cfgB.local_rss :=
  (c3_fixed_snapshot_path extBase wB).2.1 cfgB (by decide) (by decide)

/-- C3 counterexample: with `Config.local_rss = "old-rss.xml"` the pipeline
does write the file at `Config.local_rss` — its content changes across a
successful run — so "the file at Config.local_rss is never written by the
pipeline" is false as universally stated. -/
theorem c3_counterexample :
    load_config extBase wA.fs "bbsmon.json" = Except.ok cfgA
    ∧ cfgA.local_rss = "old-rss.xml"
    ∧ (main extBase wA).outcome = Except.ok ()
    ∧ fsRead (main extBase wA).fs cfgA.local_rss ≠
        fsRead wA.fs cfgA.local_rss := by
  decide

/-- C2 (amended): if a run succeeds and the configured local snapshot path
equals the fixed write path "old-rss.xml", then a second run against an
unchanged remote feed sends no mail and leaves the file system — hence the
snapshot — unchanged. -/
theorem c2_idempotent_when_paths_agree (E : Ext) (w : World)
    (h1 : (main E w).outcome = Except.ok ())
    (hcfg : ∀ cfg, load_config E w.fs "bbsmon.json" = Except.ok cfg →
      cfg.local_rss = "old-rss.xml") :
    (∀ m cn, Effect.mailSend m cn ∉
        (main E (World.mk (main E w).fs w.remote)).effects)
    ∧ (main E (World.mk (main E w).fs w.remote)).fs = (main E w).fs := by
  rcases main_cases E w with ⟨e, hl, hm⟩ | ⟨cfg0, hl, hm⟩
  · rw [hm] at h1
    exact absurd h1 (by simp)
  · have hlocal := hcfg cfg0 hl
    rcases afterConfig_cases E w cfg0 with
      ⟨e, hf0, ha⟩ | ⟨ctx0, hf0, ha⟩ | ⟨items, ctx0, hne0, hf0, hr, ha⟩ |
      ⟨items, ctx0, content, e, meff, hne0, hf0, hr, hsm, ha⟩ |
      ⟨items, ctx0, content, hne0, hf0, hr, hsend, ha⟩
    · rw [hm, ha] at h1
      exact absurd h1 (by simp)
    · simp only [hm, ha]
      exact ⟨fun m cn => by simp, by simp⟩
    · rw [hm, ha] at h1
      exact absurd h1 (by simp)
    · rw [hm, ha] at h1
      exact absurd h1 (by simp)
    · have hu := fetch_diff_items_inv E w.remote w.fs cfg0.local_rss
        cfg0.remote_rss items ctx0 hf0
      obtain ⟨hremote, hparse⟩ := from_url_inv E w.remote cfg0.remote_rss ctx0 hu
      have hload2 : load_config E (fsWrite w.fs "old-rss.xml" ctx0.raw)
          "bbsmon.json" = Except.ok cfg0 := by
        rw [load_config_congr E (fsWrite w.fs "old-rss.xml" ctx0.raw) w.fs
          "bbsmon.json"
          (fsRead_fsWrite_other w.fs "old-rss.xml" ctx0.raw "bbsmon.json"
            (by decide))]
        exact hl
      have hfile2 : RssContext.from_file E (fsWrite w.fs "old-rss.xml" ctx0.raw)
          cfg0.local_rss = Except.ok ctx0 := by
        rw [hlocal]
        simp [RssContext.from_file, fsRead_fsWrite_self, RssContext.from_reader,
          hparse, rssContext_eta]
      have hfetch2 : fetch_diff_items E w.remote
          (fsWrite w.fs "old-rss.xml" ctx0.raw) cfg0.local_rss cfg0.remote_rss =
          Except.ok ([], ctx0) := by
        simp [fetch_diff_items, hu, hfile2, diff_self_nil]
      have hmain2 : main E (World.mk (fsWrite w.fs "old-rss.xml" ctx0.raw)
          w.remote) =
          ⟨Except.ok (), fsWrite w.fs "old-rss.xml" ctx0.raw,
            [Effect.netFetch cfg0.remote_rss]⟩ := by
        simp [main, hload2, afterConfig, hfetch2]
      simp only [hm, ha]
      rw [hmain2]
      exact ⟨fun m cn => by simp, rfl⟩

theorem c2_witness :
    (main extBase (World.mk (main extBase wA).fs wA.remote)).fs =
      (main extBase wA).fs := by
  refine (c2_idempotent_when_paths_agree extBase wA (by decide) ?_).2
  intro cfg h
  rw [show load_config extBase wA.fs "bbsmon.json" = Except.ok cfgA from
    by decide] at h
  injection h with h2
  subst h2
  decide

/-- C2 counterexample: with `Config.local_rss = "feed-old.xml"` a first run
succeeds (it mails the new item and writes the snapshot to the fixed path
"old-rss.xml"), yet a second run against the unchanged remote reads the
untouched file at `Config.local_rss`, finds the same diff again, and sends
mail again — so the second run neither produces no mail nor is a no-op. -/
theorem c2_counterexample :
    (main extBase wB).outcome = Except.ok ()
    ∧ Effect.mailSend msgB connB ∈
        (main extBase (World.mk (main extBase wB).fs wB.remote)).effects := by
  decide

end Bbsmon
